import Mathlib

/-!
Shallow embedding of `FastPoseCNN/lib/hough_voting.py` (class `HoughVotingLayer`).

Tensors are modelled as (nested) lists; torch floating-point scalars are
modelled by `TF` below, a rational number or NaN.  Infinities are not
modelled: in this pipeline every division either has a NaN operand, a
nonzero denominator, or is of the form `0 / 0` (weight normalisation with a
zero total, difference-vector normalisation of a zero vector, z-score with
zero deviation), which torch evaluates to NaN.

Randomness (`torch.multinomial`) is modelled by an explicit sampler oracle
passed to each function; validity side conditions (indices in range,
distinct within a pair) mirror what `torch.multinomial(..., 2,
replacement=False)` guarantees.

`torch.pinverse` on a 2×2 matrix is modelled exactly (inverse for full
rank, `Aᵀ / ‖A‖_F²` for rank one, zero for the zero matrix); this is the
exact-arithmetic idealisation of the SVD cutoff used by torch.  A matrix
containing NaN is mapped to NaN output, matching NaN propagation through
the batched solve.
-/

namespace HoughVoting

/-- Model of a torch float scalar: a finite rational value or NaN. -/
inductive TF where
  | fin (q : ℚ)
  | nan
deriving DecidableEq, Repr

namespace TF

/-- Torch addition; NaN propagates. -/
def add : TF → TF → TF
  | fin a, fin b => fin (a + b)
  | _, _ => nan

/-- Torch subtraction; NaN propagates. -/
def sub : TF → TF → TF
  | fin a, fin b => fin (a - b)
  | _, _ => nan

/-- Torch multiplication; NaN propagates. -/
def mul : TF → TF → TF
  | fin a, fin b => fin (a * b)
  | _, _ => nan

/-- Torch division; NaN propagates, and division by zero yields NaN
(all divisions by zero reached in this pipeline are of the `0 / 0` form). -/
def div : TF → TF → TF
  | fin a, fin b => if b = 0 then nan else fin (a / b)
  | _, _ => nan

instance : Add TF := ⟨add⟩
instance : Sub TF := ⟨sub⟩
instance : Mul TF := ⟨mul⟩
instance : Div TF := ⟨div⟩

/-- Torch `<` on scalars: false whenever an operand is NaN. -/
def lt : TF → TF → Bool
  | fin a, fin b => decide (a < b)
  | _, _ => false

/-- Torch `<=` on scalars: false whenever an operand is NaN. -/
def le : TF → TF → Bool
  | fin a, fin b => decide (a ≤ b)
  | _, _ => false

/-- Torch `isnan`. -/
def isNan : TF → Bool
  | fin _ => false
  | nan => true

end TF

/-- Truncation toward zero, the conversion performed by torch `.long()`
on a finite value: the floor for non-negative values and the ceiling for
negative ones. -/
def qtrunc (q : ℚ) : ℤ := if 0 ≤ q then ⌊q⌋ else -⌊-q⌋

/-- Sum of a list of torch scalars (`torch.sum`); NaN propagates
independently of the summation order. -/
def tfSum (l : List TF) : TF := l.foldr (· + ·) (TF.fin 0)

/-- Mean of a list of torch scalars (`torch.mean`): the sum divided by the
element count; the mean of an empty list is NaN (division by zero). -/
def tfMean (l : List TF) : TF := tfSum l / TF.fin (l.length : ℚ)

/-- Comparison used to model the ascending sort underlying `torch.median`:
finite values by value, NaN ordered after every finite value. -/
def sortLe : TF → TF → Bool
  | TF.fin a, TF.fin b => decide (a ≤ b)
  | TF.fin _, TF.nan => true
  | TF.nan, TF.fin _ => false
  | TF.nan, TF.nan => true

/-- Insertion step of the ascending sort. -/
def tfInsert (x : TF) : List TF → List TF
  | [] => [x]
  | y :: ys => if sortLe x y then x :: y :: ys else y :: tfInsert x ys

/-- Ascending sort of torch scalars with NaN last. -/
def tfSort (l : List TF) : List TF := l.foldr tfInsert []

/-- Model of `torch.median` on a one-dimensional tensor: the element at
index `(n-1)/2` of the ascending sort, i.e. the lower of the two middle
values when the length is even. -/
def tmedian (l : List TF) : TF := (tfSort l).getD ((l.length - 1) / 2) TF.nan

/-- A mask image: `H × W` boolean grid (one instance slice of the
`(instances, H, W)` mask tensor). -/
abbrev MaskImg := List (List Bool)

/-- A unit-vector image: `H × W` grid of per-pixel direction values, the
pair holding channels 0 and 1 of one instance slice of the
`(instances, 2, H, W)` tensor (channel 0 is the row direction). -/
abbrev UVImg := List (List (TF × TF))

/-- Reading the unit-vector value at a pixel, `uv_img[:, r, c]`. -/
def uvAt (uv : UVImg) (p : ℕ × ℕ) : TF × TF :=
  (uv.getD p.1 []).getD p.2 (TF.nan, TF.nan)

/-- The foreground pixel coordinates of a mask in row-major order,
`torch.stack(torch.where(mask), dim=1)`: a list of `(row, col)` pairs. -/
def maskPoints (m : MaskImg) : List (ℕ × ℕ) :=
  ((List.range m.length).map fun r =>
    (List.range (m.getD r []).length).filterMap fun c =>
      if (m.getD r []).getD c false then some (r, c) else none).flatten

/-- Moore-Penrose pseudo-inverse of the 2×2 rational matrix
`[[a, b], [c, d]]`, row-major output (`torch.pinverse` in exact
arithmetic): the inverse when the determinant is nonzero, `Aᵀ / ‖A‖_F²`
for rank one, and the zero matrix for the zero matrix. -/
def pinv2 (a b c d : ℚ) : ℚ × ℚ × ℚ × ℚ :=
  let det := a * d - b * c
  if det ≠ 0 then (d / det, -b / det, -c / det, a / det)
  else
    let s := a ^ 2 + b ^ 2 + c ^ 2 + d ^ 2
    if s ≠ 0 then (a / s, c / s, b / s, d / s) else (0, 0, 0, 0)

/-- One sampled pair of the batched solve (`batchwise_generate_hypothesis`
lines 141-144 together with `batched_pinverse_solver`): for pixels `p, q`
with direction values `up, uq`, build `A = [[up₀, -uq₀], [up₁, -uq₁]]` and
`B = q - p`, take the first component `s` of `pinverse(A) ⬝ B`, and return
the hypothesis `s * up + p`.  If a direction value is NaN the pseudo-inverse
and hence the hypothesis is NaN (no NaN filtering exists in the batched
path). -/
def solvePair (p q : ℕ × ℕ) (up uq : TF × TF) : TF × TF :=
  match up, uq with
  | (TF.fin u1, TF.fin u2), (TF.fin v1, TF.fin v2) =>
    let b1 : ℚ := (q.1 : ℚ) - (p.1 : ℚ)
    let b2 : ℚ := (q.2 : ℚ) - (p.2 : ℚ)
    let m := pinv2 u1 (-v1) u2 (-v2)
    let s := m.1 * b1 + m.2.1 * b2
    (TF.fin (s * u1 + (p.1 : ℚ)), TF.fin (s * u2 + (p.2 : ℚ)))
  | _, _ => (TF.nan, TF.nan)

/-- The hypotheses of one valid instance in the batched path: exactly
`K = HV_NUM_OF_HYPOTHESES` sampled pairs (the batched path has no cap on
the pair count), pair `k` being `sampler i k` into the instance point
list. -/
def instanceHypotheses (K : ℕ) (sampler : ℕ → ℕ → ℕ × ℕ) (uv : UVImg) (i : ℕ)
    (pts : List (ℕ × ℕ)) : List (TF × TF) :=
  (List.range K).map fun k =>
    let ab := sampler i k
    let p := pts.getD ab.1 (0, 0)
    let q := pts.getD ab.2 (0, 0)
    solvePair p q (uvAt uv p) (uvAt uv q)

/-- The indices of instances with at least two foreground pixels (the
`valid_samples` list accumulated by `batchwise_generate_hypothesis`);
the batch dimension is that of `uv_img` (`range(uv_img.shape[0])`). -/
def validSamples (uv : List UVImg) (mask : List MaskImg) : List ℕ :=
  (List.range uv.length).filter fun i =>
    decide (2 ≤ (maskPoints (mask.getD i [])).length)

/-- The per-valid-instance point lists (`all_pts`). -/
def allPts (uv : List UVImg) (mask : List MaskImg) : List (List (ℕ × ℕ)) :=
  (validSamples uv mask).map fun i => maskPoints (mask.getD i [])

/-- `batchwise_generate_hypothesis`: `none` models the `(None, None, None)`
return when no instance is valid; otherwise the per-valid-instance
hypothesis lists (each of length `K`), the point lists and the valid
indices. -/
def batchwise_generate_hypothesis (K : ℕ) (sampler : ℕ → ℕ → ℕ × ℕ)
    (uv : List UVImg) (mask : List MaskImg) :
    Option (List (List (TF × TF)) × List (List (ℕ × ℕ)) × List ℕ) :=
  let vs := validSamples uv mask
  if vs = [] then none
  else some
    (vs.map fun i =>
      instanceHypotheses K sampler (uv.getD i []) i (maskPoints (mask.getD i [])),
     allPts uv mask, vs)

/-- The vote test of the Consensus Weighter for one hypothesis `h` and one
mask pixel `p` with direction value `u`: the source computes
`a = h - p`, `a = a / a.norm()` and tests `a ⬝ u > 0`.  Since the norm is
a positive real scalar when `a ≠ 0`, and the quotient is NaN when `a = 0`
(`0 / 0`) or any operand is NaN — with torch comparisons against NaN being
false — the test evaluates exactly to `a ⬝ u > 0` for finite nonzero `a`
and to false otherwise. -/
def voteTest (h : TF × TF) (p : ℕ × ℕ) (u : TF × TF) : Bool :=
  match h, u with
  | (TF.fin h1, TF.fin h2), (TF.fin u1, TF.fin u2) =>
    let d1 := h1 - (p.1 : ℚ)
    let d2 := h2 - (p.2 : ℚ)
    if d1 = 0 ∧ d2 = 0 then false
    else decide (0 < d1 * u1 + d2 * u2)
  | _, _ => false

/-- Vote count of one hypothesis: the number of mask pixels whose
direction value passes the vote test. -/
def votes (h : TF × TF) (pts : List (ℕ × ℕ)) (uvg : UVImg) : ℕ :=
  (pts.filter fun p => voteTest h p (uvAt uvg p)).length

/-- The `.long()` conversion of a hypothesis, `expanded_hypo.long()`:
truncation toward zero of each coordinate.  A NaN coordinate is mapped to
`none`: torch `.long()` of NaN yields a platform garbage value
(`-2^63` on CPU) that can never equal a mask pixel coordinate. -/
def hLong (h : TF × TF) : Option (ℤ × ℤ) :=
  match h with
  | (TF.fin a, TF.fin b) => some (qtrunc a, qtrunc b)
  | _ => none

/-- Number of mask pixels whose coordinates equal the truncated hypothesis
(`torch.sum(xy_match, dim=1)` for one hypothesis). -/
def hInMaskCount (h : TF × TF) (pts : List (ℕ × ℕ)) : ℕ :=
  (pts.filter fun p => decide (hLong h = some ((p.1 : ℤ), (p.2 : ℤ)))).length

/-- Unnormalised weight of one hypothesis
(`batchwise_calculate_hypothesis_weights` lines 200-215): the vote count,
multiplied by `HV_HYPOTHESIS_IN_MASK_MULTIPLIER` when exactly one mask
pixel matches the truncated hypothesis. -/
def rawWeight (mult : ℚ) (h : TF × TF) (pts : List (ℕ × ℕ)) (uvg : UVImg) : TF :=
  (if hInMaskCount h pts = 1 then TF.fin mult else TF.fin 1) *
    TF.fin ((votes h pts uvg : ℕ) : ℚ)

/-- Per-instance normalised weights (`weights / torch.sum(weights)`). -/
def instanceWeights (mult : ℚ) (h : List (TF × TF)) (pts : List (ℕ × ℕ))
    (uvg : UVImg) : List TF :=
  let raw := h.map fun y => rawWeight mult y pts uvg
  raw.map fun w => w / tfSum raw

/-- `batchwise_calculate_hypothesis_weights`: loops `i` over
`range(len(valid_samples))` and reads `uv_img[i]` — the unit-vector slice
is indexed by the position in the valid list, not by the original instance
id `valid_samples[i]` (source line 192). -/
def batchwise_calculate_hypothesis_weights (mult : ℚ) (valid : List ℕ)
    (apts : List (List (ℕ × ℕ))) (uv : List UVImg)
    (hyp : List (List (TF × TF))) : List (List TF) :=
  (List.range valid.length).map fun i =>
    instanceWeights mult (hyp.getD i []) (apts.getD i []) (uv.getD i [])

/-- Zeroing of NaN hypothesis components,
`pruned_hypothesis[is_nan] = 0` (per component). -/
def zeroNan (y : TF × TF) : TF × TF :=
  (if y.1.isNan then TF.fin 0 else y.1, if y.2.isNan then TF.fin 0 else y.2)

/-- Zeroing of the weights of hypotheses with a NaN component,
`weights[is_outlier] = 0` (lines 70-73), for one instance. -/
def finalInstanceWeights (hs : List (TF × TF)) (ws : List TF) : List TF :=
  List.zipWith (fun h w => if h.1.isNan || h.2.isNan then TF.fin 0 else w) hs ws

/-- The weighted mean of one instance (line 76): the sum over hypotheses of
the NaN-zeroed hypothesis times its final weight, per coordinate. -/
def instanceWeightedMean (hs : List (TF × TF)) (ws : List TF) : TF × TF :=
  let zh := hs.map zeroNan
  let fw := finalInstanceWeights hs ws
  (tfSum (List.zipWith (fun h w => h.1 * w) zh fw),
   tfSum (List.zipWith (fun h w => h.2 * w) zh fw))

/-- The weighted means of all valid instances, in the internal
`(row, col)` coordinate order of `maskPoints`. -/
def weightedMeanRows (pruned : List (List (TF × TF)))
    (weights : List (List TF)) : List (TF × TF) :=
  List.zipWith instanceWeightedMean pruned weights

/-- Hyper-parameters consumed by the voting layer (`self.HPARAM`);
`PRUN_METHOD` is `none` for Python `None`. -/
structure HParam where
  HV_NUM_OF_HYPOTHESES : ℕ
  HV_HYPOTHESIS_IN_MASK_MULTIPLIER : ℚ
  PRUN_METHOD : Option String
  PRUN_OUTLIER_DROP : Bool
  PRUN_OUTLIER_REPLACEMENT_STYLE : String
  PRUN_ZSCORE_THRESHOLD : ℚ
  IQR_MULTIPLIER : ℚ

/-- Unbiased per-axis variance underlying `torch.std` (which divides by
`n - 1`); NaN for lists with fewer than two elements or containing NaN. -/
def tfVar (l : List TF) : TF :=
  tfSum (l.map fun x => (x - tfMean l) * (x - tfMean l)) /
    TF.fin ((l.length - 1 : ℕ) : ℚ)

/-- The z-score outlier test `(y - mean) / std > T` of
`batchwise_z_score_trimming`, evaluated without introducing the irrational
`std = sqrt(var)`: for the spec-constrained positive threshold `T` and
`std > 0` the test is equivalent to `0 < diff ∧ T² · var < diff²`; when
`var = 0` the quotient is `diff / 0`, which torch evaluates to NaN
(`diff = 0`, comparison false) — the same value this formula yields — and
NaN operands yield false. -/
def zFlag (T : ℚ) (var diff : TF) : Bool :=
  match var, diff with
  | TF.fin v, TF.fin d => decide (0 < d) && decide (T ^ 2 * v < d ^ 2)
  | _, _ => false

/-- Per-instance z-score outlier flags (one flag per hypothesis; the
source expands the per-hypothesis flag over both coordinates). -/
def zscoreInstanceFlags (T : ℚ) (y : List (TF × TF)) : List Bool :=
  let c0 := y.map Prod.fst
  let c1 := y.map Prod.snd
  let m0 := tfMean c0
  let m1 := tfMean c1
  let v0 := tfVar c0
  let v1 := tfVar c1
  y.map fun v => zFlag T v0 (v.1 - m0) || zFlag T v1 (v.2 - m1)

/-- `batchwise_z_score_trimming`. -/
def batchwise_z_score_trimming (T : ℚ) (Y : List (List (TF × TF))) :
    List (List Bool) :=
  Y.map (zscoreInstanceFlags T)

/-- The per-axis IQR cutoffs of `batchwise_iqr_trimming`: `q2` is the
median, `q1` the median of the values `≤ q2`, `q3` the median of the
values `≥ q2`, and the result is `(q1 - m·iqr, q3 + m·iqr)` with
`iqr = q3 - q1`. -/
def iqrCutoffs (m : ℚ) (col : List TF) : TF × TF :=
  let q2 := tmedian col
  let q1 := tmedian (col.filter fun v => TF.le v q2)
  let q3 := tmedian (col.filter fun v => TF.le q2 v)
  let iqr := q3 - q1
  (q1 - TF.fin m * iqr, q3 + TF.fin m * iqr)

/-- Per-instance IQR outlier flags: a hypothesis is flagged when either
coordinate is strictly outside its axis cutoffs (the source ors the
per-axis flags and expands over the coordinate dimension). -/
def iqrInstanceFlags (m : ℚ) (y : List (TF × TF)) : List Bool :=
  let c0 := y.map Prod.fst
  let c1 := y.map Prod.snd
  let ct0 := iqrCutoffs m c0
  let ct1 := iqrCutoffs m c1
  y.map fun v =>
    (TF.lt ct0.2 v.1 || TF.lt v.1 ct0.1) || (TF.lt ct1.2 v.2 || TF.lt v.2 ct1.1)

/-- `batchwise_iqr_trimming`. -/
def batchwise_iqr_trimming (m : ℚ) (Y : List (List (TF × TF))) :
    List (List Bool) :=
  Y.map (iqrInstanceFlags m)

/-- The per-instance replacement value of the replace policy
(`torch.mean(prun_Y, dim=1)` or `torch.median(prun_Y, dim=1).values`,
computed over the unpruned hypothesis set); `none` when the configured
style is neither `mean` nor `median`, in which case the source continues
with the unbound local `replace_data` and a `NameError` is raised. -/
def replaceData (style : String) (y : List (TF × TF)) : Option (TF × TF) :=
  if style = "mean" then some (tfMean (y.map Prod.fst), tfMean (y.map Prod.snd))
  else if style = "median" then
    some (tmedian (y.map Prod.fst), tmedian (y.map Prod.snd))
  else none

/-- The policy block of `prun_outliers` (lines 417-435): drop flagged
hypotheses to NaN, or replace them by the per-instance mean/median; for
any other replacement style the local `replace_data` is unbound and the
line `torch.unsqueeze(replace_data, dim=1)` raises a `NameError`. -/
def applyOutlierPolicy (hp : HParam) (flags : List (List Bool))
    (Y : List (List (TF × TF))) : Except String (List (List (TF × TF))) :=
  if hp.PRUN_OUTLIER_DROP then
    Except.ok (List.zipWith
      (fun ys fs => List.zipWith
        (fun y f => if f then (TF.nan, TF.nan) else y) ys fs) Y flags)
  else
    if hp.PRUN_OUTLIER_REPLACEMENT_STYLE = "mean" ∨
        hp.PRUN_OUTLIER_REPLACEMENT_STYLE = "median" then
      Except.ok (List.zipWith
        (fun ys fs =>
          let rd := (replaceData hp.PRUN_OUTLIER_REPLACEMENT_STYLE ys).getD
            (TF.nan, TF.nan)
          List.zipWith (fun y f => if f then rd else y) ys fs) Y flags)
    else Except.error "NameError: name replace_data is not defined"

/-- `prun_outliers`: identity for `PRUN_METHOD = None`, outlier detection
followed by the drop/replace policy for `z-score` and `iqr`, and a
`RuntimeError` for any other method. -/
def prun_outliers (hp : HParam) (Y : List (List (TF × TF))) :
    Except String (List (List (TF × TF))) :=
  match hp.PRUN_METHOD with
  | none => Except.ok Y
  | some method =>
    if method = "z-score" then
      applyOutlierPolicy hp (batchwise_z_score_trimming hp.PRUN_ZSCORE_THRESHOLD Y) Y
    else if method = "iqr" then
      applyOutlierPolicy hp (batchwise_iqr_trimming hp.IQR_MULTIPLIER Y) Y
    else Except.error "RuntimeError: Invalid HARAM.PRUN_METHOD"

/-- `batchwise_hough_voting`: generate hypotheses, prune outliers, weight,
zero NaN hypotheses and their weights, take weighted means, flip the
internal `(row, col)` order to `(col, row)` (`weighted_mean[:, [1, 0]]`),
and scatter into a zero tensor of the full batch size
(`uv_img.shape[0]` rows), leaving zero rows for invalid instances.  When
no instance is valid the result is the all-zero tensor. -/
def batchwise_hough_voting (hp : HParam) (sampler : ℕ → ℕ → ℕ × ℕ)
    (uv : List UVImg) (mask : List MaskImg) :
    Except String (List (TF × TF)) :=
  match batchwise_generate_hypothesis hp.HV_NUM_OF_HYPOTHESES sampler uv mask with
  | none => Except.ok (List.replicate uv.length (TF.fin 0, TF.fin 0))
  | some (hyp, apts, vs) =>
    (prun_outliers hp hyp).map fun pruned =>
      let weights := batchwise_calculate_hypothesis_weights
        hp.HV_HYPOTHESIS_IN_MASK_MULTIPLIER vs apts uv pruned
      let pixel_xy := (weightedMeanRows pruned weights).map Prod.swap
      (List.range uv.length).map fun i =>
        match vs.findIdx? (fun j => j == i) with
        | some j => pixel_xy.getD j (TF.fin 0, TF.fin 0)
        | none => (TF.fin 0, TF.fin 0)

/-- The capped pair count of the sequential `generate_hypothesis`
(lines 279-280): `min(HV_NUM_OF_HYPOTHESES, comb(num_of_pts, 2))`. -/
def seqNumPairs (K n : ℕ) : ℕ := min K (Nat.choose n 2)

/-- Whether a sampled pair reads a NaN direction value at either pixel
(the per-pair `is_nan` reduction of lines 296-297). -/
def pairHasNan (uvg : UVImg) (pts : List (ℕ × ℕ)) (ab : ℕ × ℕ) : Bool :=
  let up := uvAt uvg (pts.getD ab.1 (0, 0))
  let uq := uvAt uvg (pts.getD ab.2 (0, 0))
  up.1.isNan || up.2.isNan || uq.1.isNan || uq.2.isNan

/-- The sequential `generate_hypothesis`: draws `min(K, comb(n, 2))`
pairs; if every pair has a NaN direction value it returns the single NaN
hypothesis `tensor([nan, nan])`; otherwise it filters the NaN pairs,
solves, and then calls `self.std_trimming_mean` — a method that does not
exist on the class, so every non-all-NaN execution raises
`AttributeError` before returning. -/
def generate_hypothesis (K : ℕ) (sampler : ℕ → ℕ × ℕ) (uvg : UVImg)
    (pts : List (ℕ × ℕ)) : Except String (List (TF × TF)) :=
  let pairs := (List.range (seqNumPairs K pts.length)).map sampler
  if pairs.all (pairHasNan uvg pts) then Except.ok [(TF.nan, TF.nan)]
  else Except.error
    "AttributeError: HoughVotingLayer object has no attribute std_trimming_mean"

/-- The sequential `calculate_hypothesis_weights`: plain vote counts, with
no in-mask multiplier and no normalisation. -/
def calculate_hypothesis_weights (uvg : UVImg) (pts : List (ℕ × ℕ))
    (hyp : List (TF × TF)) : List ℕ :=
  hyp.map fun h => votes h pts uvg

/-- The sequential `hough_voting`: NaN pair for masks with fewer than two
foreground pixels and for all-NaN hypothesis sets; otherwise the weighted
mean flipped to `(col, row)` — unreachable in practice because
`generate_hypothesis` raises whenever some pair is NaN-free. -/
def hough_voting (K : ℕ) (sampler : ℕ → ℕ × ℕ) (uvg : UVImg)
    (mask : MaskImg) : Except String (TF × TF) :=
  let pts := maskPoints mask
  if pts.length < 2 then Except.ok (TF.nan, TF.nan)
  else
    match generate_hypothesis K sampler uvg pts with
    | Except.error e => Except.error e
    | Except.ok hyp =>
      if hyp.all fun y => y.1.isNan && y.2.isNan then Except.ok (TF.nan, TF.nan)
      else
        let ws := calculate_hypothesis_weights uvg pts hyp
        let wsum := TF.fin ((ws.foldr (· + ·) 0 : ℕ) : ℚ)
        let num1 := tfSum (List.zipWith (fun h w => h.1 * TF.fin ((w : ℕ) : ℚ)) hyp ws)
        let num2 := tfSum (List.zipWith (fun h w => h.2 * TF.fin ((w : ℕ) : ℚ)) hyp ws)
        Except.ok (num2 / wsum, num1 / wsum)

/-! Concrete inputs used to settle the claims on explicit runs. -/

/-- Sampler that always picks the point pair `(0, 1)` — a valid draw for
any instance with at least two points. -/
def exSampler : ℕ → ℕ → ℕ × ℕ := fun _ _ => (0, 1)

/-- Sequential-path sampler always picking the pair `(0, 1)`. -/
def exSeqSampler : ℕ → ℕ × ℕ := fun _ => (0, 1)

/-- A 2×3 unit-vector image whose two mask pixels `(0,2)` and `(1,0)`
carry unit vectors pointing exactly at the location row 1, col 2. -/
def exUV1 : UVImg :=
  [[(TF.fin 0, TF.fin 0), (TF.fin 0, TF.fin 0), (TF.fin 1, TF.fin 0)],
   [(TF.fin 0, TF.fin 1), (TF.fin 0, TF.fin 0), (TF.fin 0, TF.fin 0)]]

/-- The 2×3 mask with foreground pixels `(0,2)` and `(1,0)`. -/
def exMask1 : MaskImg := [[false, false, true], [true, false, false]]

/-- Hyper-parameters: two hypotheses, in-mask multiplier 10, no pruning. -/
def exHP1 : HParam := ⟨2, 10, none, false, "mean", 1, 1⟩

/-- A 1×3 unit-vector image whose two mask pixels `(0,0)` and `(0,2)`
both point away from the pseudo-inverse intersection `(0,1)`, so every
hypothesis receives zero votes. -/
def exUV2 : UVImg :=
  [[(TF.fin 0, TF.fin (-1)), (TF.fin 0, TF.fin 0), (TF.fin 0, TF.fin 1)]]

/-- The 1×3 mask with foreground pixels `(0,0)` and `(0,2)`. -/
def exMask2 : MaskImg := [[true, false, true]]

/-- A 1×3 unit-vector image with a NaN direction value at mask pixel
`(0,0)`, so every sampled pair `(0, 1)` reads a NaN. -/
def exUV3 : UVImg :=
  [[(TF.nan, TF.nan), (TF.fin 0, TF.fin 0), (TF.fin 0, TF.fin 1)]]

/-- A 3×4 unit-vector image used for the in-mask boost counterexample. -/
def exUV4 : UVImg :=
  [[(TF.fin 1, TF.fin 1), (TF.fin 0, TF.fin 0), (TF.fin 0, TF.fin 0), (TF.fin 0, TF.fin 0)],
   [(TF.fin 0, TF.fin 0), (TF.fin 0, TF.fin 0), (TF.fin 0, TF.fin 0), (TF.fin 0, TF.fin 0)],
   [(TF.fin 0, TF.fin 0), (TF.fin 0, TF.fin 0), (TF.fin 0, TF.fin 0), (TF.fin 1, TF.fin 0)]]

/-- Mask point set containing the pixels `(2,3)` and `(0,0)`. -/
def exPts4 : List (ℕ × ℕ) := [(2, 3), (0, 0)]

/-- The non-integral hypothesis `(5/2, 3)`: off every pixel, but its
truncation `(2, 3)` is a pixel of `exPts4`. -/
def exHyp4 : TF × TF := (TF.fin (5/2), TF.fin 3)

/-- Hyper-parameters with an unrecognised pruning method. -/
def exHPBad : HParam := ⟨2, 10, some "bogus", false, "mean", 1, 1⟩

/-- A 1×1 all-background mask (no valid instance). -/
def exMaskE : MaskImg := [[false]]

/-- A 1×1 unit-vector image matching `exMaskE`. -/
def exUVE : UVImg := [[(TF.fin 0, TF.fin 0)]]

/-- Hyper-parameters with `PRUN_METHOD = None`, replace policy, and the
unsupported replacement style `mode`. -/
def exHPMode : HParam := ⟨2, 10, none, false, "mode", 1, 1⟩

/-- Hyper-parameters with the `iqr` method, replace policy, and the
unsupported replacement style `mode`. -/
def exHPIqrMode : HParam := ⟨2, 10, some "iqr", false, "mode", 1, 1⟩

/-- A one-instance, one-hypothesis set used to exercise `prun_outliers`. -/
def exY : List (List (TF × TF)) := [[(TF.fin 1, TF.fin 2)]]

/-- The IQR outlier criterion exactly as the spec states it, over rational
hypothesis coordinates: per axis, `Q2` is the median, `Q1` the median of
the values `≤ Q2`, `Q3` the median of the values `≥ Q2`,
`IQR = Q3 - Q1`, and a hypothesis is an outlier exactly when one of its
coordinates lies outside `[Q1 - m·IQR, Q3 + m·IQR]`.  `median` is the
lower-middle median computed by `torch.median`. -/
def qInsert (x : ℚ) : List ℚ → List ℚ
  | [] => [x]
  | y :: ys => if x ≤ y then x :: y :: ys else y :: qInsert x ys

/-- Ascending insertion sort of rationals (spec side). -/
def qSort (l : List ℚ) : List ℚ := l.foldr qInsert []

/-- The lower-middle median of a list of rationals, the value computed by
`torch.median`. -/
def qmedian (l : List ℚ) : ℚ := (qSort l).getD ((l.length - 1) / 2) 0

/-- Spec-side per-axis IQR cutoffs `(Q1 - m·IQR, Q3 + m·IQR)`. -/
def qIqrCutoffs (m : ℚ) (col : List ℚ) : ℚ × ℚ :=
  let q2 := qmedian col
  let q1 := qmedian (col.filter fun v => decide (v ≤ q2))
  let q3 := qmedian (col.filter fun v => decide (q2 ≤ v))
  let iqr := q3 - q1
  (q1 - m * iqr, q3 + m * iqr)

/-- Spec-side IQR outlier flag of one hypothesis within its instance
hypothesis set. -/
def iqrOutlierSpec (m : ℚ) (ys : List (ℚ × ℚ)) (v : ℚ × ℚ) : Bool :=
  let ct0 := qIqrCutoffs m (ys.map Prod.fst)
  let ct1 := qIqrCutoffs m (ys.map Prod.snd)
  (decide (ct0.2 < v.1) || decide (v.1 < ct0.1)) ||
    (decide (ct1.2 < v.2) || decide (v.2 < ct1.1))

/-- Injection of a rational hypothesis set into torch scalars. -/
def finPair (p : ℚ × ℚ) : TF × TF := (TF.fin p.1, TF.fin p.2)

/-! From here on: theorems. -/

namespace TF

@[simp] theorem add_fin (a b : ℚ) : (fin a) + (fin b) = fin (a + b) := rfl
@[simp] theorem sub_fin (a b : ℚ) : (fin a) - (fin b) = fin (a - b) := rfl
@[simp] theorem mul_fin (a b : ℚ) : (fin a) * (fin b) = fin (a * b) := rfl
@[simp] theorem add_nan (x : TF) : x + nan = nan := by cases x <;> rfl
@[simp] theorem nan_add (x : TF) : nan + x = nan := rfl
@[simp] theorem mul_nan (x : TF) : x * nan = nan := by cases x <;> rfl
@[simp] theorem nan_mul (x : TF) : nan * x = nan := rfl
@[simp] theorem div_fin (a b : ℚ) :
    (fin a) / (fin b) = if b = 0 then nan else fin (a / b) := rfl
@[simp] theorem nan_div (x : TF) : nan / x = nan := rfl
@[simp] theorem div_nan (x : TF) : x / nan = nan := by cases x <;> rfl
@[simp] theorem isNan_fin (a : ℚ) : (fin a).isNan = false := rfl
@[simp] theorem isNan_nan : (nan : TF).isNan = true := rfl
@[simp] theorem lt_fin (a b : ℚ) : lt (fin a) (fin b) = decide (a < b) := rfl
@[simp] theorem le_fin (a b : ℚ) : le (fin a) (fin b) = decide (a ≤ b) := rfl
@[simp] theorem lt_nan (x : TF) : lt x nan = false := by cases x <;> rfl
@[simp] theorem nan_lt (x : TF) : lt nan x = false := rfl
@[simp] theorem le_nan (x : TF) : le x nan = false := by cases x <;> rfl
@[simp] theorem nan_le (x : TF) : le nan x = false := rfl

end TF

theorem getD_lit1 {α : Type _} (x y : α) (l : List α) (d : α) :
    (x :: y :: l).getD 1 d = y := rfl

theorem range_lit1 : List.range 1 = [0] := by decide

theorem range_lit2 : List.range 2 = [0, 1] := by decide

theorem range_lit3 : List.range 3 = [0, 1, 2] := by decide

set_option maxHeartbeats 1000000

/-- On `exUV1`/`exMask1` the batched generator produces the hypothesis
`(1, 2)` (row 1, col 2) from both sampled pairs. -/
theorem exGen1 :
    batchwise_generate_hypothesis 2 exSampler [exUV1] [exMask1] =
      some ([[(TF.fin 1, TF.fin 2), (TF.fin 1, TF.fin 2)]], [[(0, 2), (1, 0)]],
        [0]) := by
  have h1 : maskPoints exMask1 = [(0, 2), (1, 0)] := by decide
  have h2 : validSamples [exUV1] [exMask1] = [0] := by decide
  have h3 : uvAt exUV1 (0, 2) = (TF.fin 1, TF.fin 0) := by decide
  have h4 : uvAt exUV1 (1, 0) = (TF.fin 0, TF.fin 1) := by decide
  have h5 : solvePair (0, 2) (1, 0) (TF.fin 1, TF.fin 0) (TF.fin 0, TF.fin 1) =
      (TF.fin 1, TF.fin 2) := by norm_num [solvePair, pinv2]
  norm_num [batchwise_generate_hypothesis, h2, allPts, h1, instanceHypotheses,
    exSampler, range_lit2, getD_lit1, h3, h4, h5]

/-- The weights of the `exUV1` instance: two votes per hypothesis, no
in-mask match, normalised to `1/2` each. -/
theorem exWeights1 :
    batchwise_calculate_hypothesis_weights 10 [0] [[(0, 2), (1, 0)]] [exUV1]
      [[(TF.fin 1, TF.fin 2), (TF.fin 1, TF.fin 2)]] =
      [[TF.fin (1/2), TF.fin (1/2)]] := by
  have h3 : uvAt exUV1 (0, 2) = (TF.fin 1, TF.fin 0) := by decide
  have h4 : uvAt exUV1 (1, 0) = (TF.fin 0, TF.fin 1) := by decide
  have hv : votes (TF.fin 1, TF.fin 2) [(0, 2), (1, 0)] exUV1 = 2 := by
    norm_num [votes, voteTest, h3, h4]
  have hc : hInMaskCount (TF.fin 1, TF.fin 2) [(0, 2), (1, 0)] = 0 := by
    norm_num [hInMaskCount, hLong, qtrunc]
  have hraw : rawWeight 10 (TF.fin 1, TF.fin 2) [(0, 2), (1, 0)] exUV1 =
      TF.fin 2 := by
    norm_num [rawWeight, hv, hc]
  norm_num [batchwise_calculate_hypothesis_weights, range_lit1, instanceWeights,
    hraw, tfSum, TF.add, TF.div]

/-- The internal weighted mean of the `exUV1` instance, in the `(row, col)`
order of `maskPoints`: row 1, col 2. -/
theorem exWM1 :
    weightedMeanRows [[(TF.fin 1, TF.fin 2), (TF.fin 1, TF.fin 2)]]
      [[TF.fin (1/2), TF.fin (1/2)]] = [(TF.fin 1, TF.fin 2)] := by
  norm_num [weightedMeanRows, instanceWeightedMean, finalInstanceWeights,
    zeroNan, tfSum, TF.add, TF.mul]

/-- The full pipeline output on `exUV1`/`exMask1`: the single row `(2, 1)`,
i.e. the flipped `(col, row)` order. -/
theorem exVoting1 :
    batchwise_hough_voting exHP1 exSampler [exUV1] [exMask1] =
      Except.ok [(TF.fin 2, TF.fin 1)] := by
  have e1 : exHP1.HV_NUM_OF_HYPOTHESES = 2 := rfl
  have e2 : exHP1.HV_HYPOTHESIS_IN_MASK_MULTIPLIER = 10 := rfl
  have hprun : prun_outliers exHP1 [[(TF.fin 1, TF.fin 2), (TF.fin 1, TF.fin 2)]] =
      Except.ok [[(TF.fin 1, TF.fin 2), (TF.fin 1, TF.fin 2)]] := rfl
  simp only [batchwise_hough_voting, e1, e2, exGen1, hprun, Except.map,
    exWeights1, exWM1]
  norm_num [range_lit1, List.findIdx?]

/-- C1: the claim states that each output row of `batchwise_hough_voting`
is in `(row, col)` order, the order of `maskPoints`.  On a concrete batch
whose single instance votes exactly for the pixel location row 1, col 2
(the internal weighted mean is `(1, 2)` in `maskPoints` order), the
pipeline returns the row `(2, 1)` — the flipped order — refuting the
claim. -/
theorem C1_counterexample :
    batchwise_generate_hypothesis 2 exSampler [exUV1] [exMask1] =
      some ([[(TF.fin 1, TF.fin 2), (TF.fin 1, TF.fin 2)]], [[(0, 2), (1, 0)]], [0]) ∧
    weightedMeanRows [[(TF.fin 1, TF.fin 2), (TF.fin 1, TF.fin 2)]]
      (batchwise_calculate_hypothesis_weights 10 [0] [[(0, 2), (1, 0)]] [exUV1]
        [[(TF.fin 1, TF.fin 2), (TF.fin 1, TF.fin 2)]]) = [(TF.fin 1, TF.fin 2)] ∧
    batchwise_hough_voting exHP1 exSampler [exUV1] [exMask1] =
      Except.ok [(TF.fin 2, TF.fin 1)] ∧
    (TF.fin 2, TF.fin 1) ≠ ((TF.fin 1, TF.fin 2) : TF × TF) :=
  ⟨exGen1, by rw [exWeights1]; exact exWM1, exVoting1, by simp⟩

/-- C3: on an instance with exactly two foreground pixels (a single
distinct unordered pair, `count(2,2) = 1`) the batched hypothesis
generator still draws `K = 3` pairs — the cap at the number of
combinations claimed for the batched production path does not exist
there. -/
theorem C3_counterexample :
    (instanceHypotheses 3 exSampler exUV2 0 [(0, 0), (0, 2)]).length = 3 ∧
    Nat.choose 2 2 = 1 ∧
    ¬ (instanceHypotheses 3 exSampler exUV2 0 [(0, 0), (0, 2)]).length ≤
        Nat.choose 2 2 := by
  refine ⟨?_, by decide, ?_⟩ <;> simp [instanceHypotheses]

/-- C3 (amended): in the batched path every valid instance receives
exactly `K = HV_NUM_OF_HYPOTHESES` sampled pairs and hence `K`
hypotheses, with no cap at `count(points, 2)`; the cap exists only in the
sequential variant (`seqNumPairs`). -/
theorem C3_amended (K : ℕ) (sampler : ℕ → ℕ → ℕ × ℕ) (uvg : UVImg) (i : ℕ)
    (pts : List (ℕ × ℕ)) :
    (instanceHypotheses K sampler uvg i pts).length = K ∧
    ∀ n, seqNumPairs K n = min K (Nat.choose n 2) := by
  exact ⟨by simp [instanceHypotheses], fun n => rfl⟩

/-- C9: the sequential `hough_voting` returns the NaN pair both for masks
with fewer than two foreground pixels and when the generated hypothesis
set is all NaN (which happens exactly when every sampled pair reads a NaN
direction value). -/
theorem C9_sequential_nan (K : ℕ) (sampler : ℕ → ℕ × ℕ) (uvg : UVImg)
    (mask : MaskImg)
    (h : (maskPoints mask).length < 2 ∨
      generate_hypothesis K sampler uvg (maskPoints mask) =
        Except.ok [(TF.nan, TF.nan)]) :
    hough_voting K sampler uvg mask = Except.ok (TF.nan, TF.nan) := by
  rw [hough_voting]
  by_cases hlen : (maskPoints mask).length < 2
  · simp [hlen]
  · rcases h with h | h
    · exact absurd h hlen
    · simp [hlen, h, TF.isNan]

theorem C9_witness :
    ((maskPoints exMaskE).length < 2 ∨
      generate_hypothesis 50 exSeqSampler exUVE (maskPoints exMaskE) =
        Except.ok [(TF.nan, TF.nan)]) ∧
    hough_voting 50 exSeqSampler exUVE exMaskE = Except.ok (TF.nan, TF.nan) :=
  ⟨Or.inl (by decide),
    C9_sequential_nan 50 exSeqSampler exUVE exMaskE (Or.inl (by decide))⟩

/-- C10: with the recognised pruning method `None`, replace policy and the
unsupported replacement style `mode`, `prun_outliers` returns normally —
no `NameError` is raised — refuting the claim for this configuration. -/
theorem C10_counterexample :
    exHPMode.PRUN_METHOD = none ∧
    exHPMode.PRUN_OUTLIER_DROP = false ∧
    exHPMode.PRUN_OUTLIER_REPLACEMENT_STYLE = "mode" ∧
    prun_outliers exHPMode exY = Except.ok exY ∧
    Except.ok exY ≠
      Except.error "NameError: name replace_data is not defined" := by
  exact ⟨rfl, rfl, rfl, rfl, by simp⟩

/-- C6: with an unrecognised pruning method but no valid instance in the
batch, `batchwise_hough_voting` silently returns the all-zero output
instead of raising — the configuration error is not raised at call time
on every call. -/
theorem C6_counterexample :
    exHPBad.PRUN_METHOD = some "bogus" ∧
    batchwise_hough_voting exHPBad exSampler [exUVE] [exMaskE] =
      Except.ok [(TF.fin 0, TF.fin 0)] ∧
    (Except.ok [(TF.fin 0, TF.fin 0)] :
        Except String (List (TF × TF))) ≠
      Except.error "RuntimeError: Invalid HARAM.PRUN_METHOD" := by
  have hgen : batchwise_generate_hypothesis 2 exSampler [exUVE] [exMaskE] =
      none := by decide
  have e1 : exHPBad.HV_NUM_OF_HYPOTHESES = 2 := rfl
  refine ⟨rfl, ?_, by simp⟩
  simp [batchwise_hough_voting, e1, hgen]

/-- C2: a pipeline-reachable instance (two mask pixels whose unit vectors
point away from the solved intersection) on which every hypothesis
survives pruning but receives zero votes: the normalisation `w / Σw` is
`0 / 0`, the final weights are NaN, and their sum is NaN — neither 0 nor
1 — and the NaN reaches the output row. -/
theorem C2_counterexample :
    batchwise_generate_hypothesis 2 exSampler [exUV2] [exMask2] =
      some ([[(TF.fin 0, TF.fin 1), (TF.fin 0, TF.fin 1)]], [[(0, 0), (0, 2)]], [0]) ∧
    prun_outliers exHP1 [[(TF.fin 0, TF.fin 1), (TF.fin 0, TF.fin 1)]] =
      Except.ok [[(TF.fin 0, TF.fin 1), (TF.fin 0, TF.fin 1)]] ∧
    instanceWeights 10 [(TF.fin 0, TF.fin 1), (TF.fin 0, TF.fin 1)]
      [(0, 0), (0, 2)] exUV2 = [TF.nan, TF.nan] ∧
    tfSum (finalInstanceWeights [(TF.fin 0, TF.fin 1), (TF.fin 0, TF.fin 1)]
      [TF.nan, TF.nan]) = TF.nan ∧
    TF.nan ≠ TF.fin 0 ∧ TF.nan ≠ TF.fin 1 ∧
    batchwise_hough_voting exHP1 exSampler [exUV2] [exMask2] =
      Except.ok [(TF.nan, TF.nan)] := by
  have h1 : maskPoints exMask2 = [(0, 0), (0, 2)] := by decide
  have h2 : validSamples [exUV2] [exMask2] = [0] := by decide
  have h3 : uvAt exUV2 (0, 0) = (TF.fin 0, TF.fin (-1)) := by decide
  have h4 : uvAt exUV2 (0, 2) = (TF.fin 0, TF.fin 1) := by decide
  have h5 : solvePair (0, 0) (0, 2) (TF.fin 0, TF.fin (-1)) (TF.fin 0, TF.fin 1) =
      (TF.fin 0, TF.fin 1) := by norm_num [-Prod.mk_zero_zero, -Prod.mk_one_one, solvePair, pinv2]
  have hgen : batchwise_generate_hypothesis 2 exSampler [exUV2] [exMask2] =
      some ([[(TF.fin 0, TF.fin 1), (TF.fin 0, TF.fin 1)]], [[(0, 0), (0, 2)]], [0]) := by
    norm_num [-Prod.mk_zero_zero, -Prod.mk_one_one, batchwise_generate_hypothesis, h2, allPts, h1, instanceHypotheses,
      exSampler, range_lit2, getD_lit1, h3, h4, h5]
  have hv : votes (TF.fin 0, TF.fin 1) [(0, 0), (0, 2)] exUV2 = 0 := by
    norm_num [-Prod.mk_zero_zero, -Prod.mk_one_one, votes, voteTest, h3, h4]
  have hc : hInMaskCount (TF.fin 0, TF.fin 1) [(0, 0), (0, 2)] = 0 := by
    norm_num [-Prod.mk_zero_zero, -Prod.mk_one_one, hInMaskCount, hLong, qtrunc]
  have hraw : rawWeight 10 (TF.fin 0, TF.fin 1) [(0, 0), (0, 2)] exUV2 = TF.fin 0 := by
    norm_num [-Prod.mk_zero_zero, -Prod.mk_one_one, rawWeight, hv, hc]
  have hiw : instanceWeights 10 [(TF.fin 0, TF.fin 1), (TF.fin 0, TF.fin 1)]
      [(0, 0), (0, 2)] exUV2 = [TF.nan, TF.nan] := by
    norm_num [-Prod.mk_zero_zero, -Prod.mk_one_one, instanceWeights, hraw, tfSum, TF.add, TF.div]
  have hfw : finalInstanceWeights [(TF.fin 0, TF.fin 1), (TF.fin 0, TF.fin 1)]
      [TF.nan, TF.nan] = [TF.nan, TF.nan] := by
    norm_num [-Prod.mk_zero_zero, -Prod.mk_one_one, finalInstanceWeights]
  have hw : batchwise_calculate_hypothesis_weights 10 [0] [[(0, 0), (0, 2)]] [exUV2]
      [[(TF.fin 0, TF.fin 1), (TF.fin 0, TF.fin 1)]] = [[TF.nan, TF.nan]] := by
    norm_num [-Prod.mk_zero_zero, -Prod.mk_one_one, batchwise_calculate_hypothesis_weights, range_lit1, hiw]
  have hwm : weightedMeanRows [[(TF.fin 0, TF.fin 1), (TF.fin 0, TF.fin 1)]]
      [[TF.nan, TF.nan]] = [(TF.nan, TF.nan)] := by
    norm_num [-Prod.mk_zero_zero, -Prod.mk_one_one, weightedMeanRows, instanceWeightedMean, finalInstanceWeights,
      zeroNan, tfSum]
  have e1 : exHP1.HV_NUM_OF_HYPOTHESES = 2 := rfl
  have e2 : exHP1.HV_HYPOTHESIS_IN_MASK_MULTIPLIER = 10 := rfl
  have hprun : prun_outliers exHP1 [[(TF.fin 0, TF.fin 1), (TF.fin 0, TF.fin 1)]] =
      Except.ok [[(TF.fin 0, TF.fin 1), (TF.fin 0, TF.fin 1)]] := rfl
  refine ⟨hgen, hprun, hiw, by rw [hfw]; rfl, by simp, by simp, ?_⟩
  simp only [batchwise_hough_voting, e1, e2, hgen, hprun, Except.map, hw, hwm]
  norm_num [-Prod.mk_zero_zero, -Prod.mk_one_one, range_lit1, List.findIdx?]

/-- C4: in the batched path a sampled pair whose unit-vector value is NaN
is not dropped: the NaN value read at pixel `(0,0)` enters the solve and
yields the NaN hypothesis, the hypothesis list keeps all `K = 2` entries,
and the all-NaN instance still produces a zero output row downstream. -/
theorem C4_nan_enters_solve :
    (uvAt exUV3 (0, 0)).1.isNan = true ∧
    solvePair (0, 0) (0, 2) (uvAt exUV3 (0, 0)) (uvAt exUV3 (0, 2)) =
      (TF.nan, TF.nan) ∧
    batchwise_generate_hypothesis 2 exSampler [exUV3] [exMask2] =
      some ([[(TF.nan, TF.nan), (TF.nan, TF.nan)]], [[(0, 0), (0, 2)]], [0]) ∧
    ([[(TF.nan, TF.nan), (TF.nan, TF.nan)]].getD 0 (α := List (TF × TF)) []).length = 2 ∧
    batchwise_hough_voting exHP1 exSampler [exUV3] [exMask2] =
      Except.ok [(TF.fin 0, TF.fin 0)] := by
  have h1 : maskPoints exMask2 = [(0, 0), (0, 2)] := by decide
  have h2 : validSamples [exUV3] [exMask2] = [0] := by decide
  have h3 : uvAt exUV3 (0, 0) = (TF.nan, TF.nan) := by decide
  have h4 : uvAt exUV3 (0, 2) = (TF.fin 0, TF.fin 1) := by decide
  have h5 : solvePair (0, 0) (0, 2) (TF.nan, TF.nan) (TF.fin 0, TF.fin 1) =
      (TF.nan, TF.nan) := rfl
  have hgen : batchwise_generate_hypothesis 2 exSampler [exUV3] [exMask2] =
      some ([[(TF.nan, TF.nan), (TF.nan, TF.nan)]], [[(0, 0), (0, 2)]], [0]) := by
    norm_num [-Prod.mk_zero_zero, -Prod.mk_one_one, batchwise_generate_hypothesis, h2, allPts, h1, instanceHypotheses,
      exSampler, range_lit2, getD_lit1, h3, h4, h5]
  have hv : votes (TF.nan, TF.nan) [(0, 0), (0, 2)] exUV3 = 0 := by decide
  have hc : hInMaskCount (TF.nan, TF.nan) [(0, 0), (0, 2)] = 0 := by decide
  have hraw : rawWeight 10 (TF.nan, TF.nan) [(0, 0), (0, 2)] exUV3 = TF.fin 0 := by
    norm_num [-Prod.mk_zero_zero, -Prod.mk_one_one, rawWeight, hv, hc]
  have hiw : instanceWeights 10 [(TF.nan, TF.nan), (TF.nan, TF.nan)]
      [(0, 0), (0, 2)] exUV3 = [TF.nan, TF.nan] := by
    norm_num [-Prod.mk_zero_zero, -Prod.mk_one_one, instanceWeights, hraw, tfSum, TF.add, TF.div]
  have hw : batchwise_calculate_hypothesis_weights 10 [0] [[(0, 0), (0, 2)]] [exUV3]
      [[(TF.nan, TF.nan), (TF.nan, TF.nan)]] = [[TF.nan, TF.nan]] := by
    norm_num [-Prod.mk_zero_zero, -Prod.mk_one_one, batchwise_calculate_hypothesis_weights, range_lit1, hiw]
  have hwm : weightedMeanRows [[(TF.nan, TF.nan), (TF.nan, TF.nan)]]
      [[TF.nan, TF.nan]] = [(TF.fin 0, TF.fin 0)] := by
    norm_num [-Prod.mk_zero_zero, -Prod.mk_one_one, weightedMeanRows, instanceWeightedMean, finalInstanceWeights,
      zeroNan, tfSum, TF.isNan]
  have e1 : exHP1.HV_NUM_OF_HYPOTHESES = 2 := rfl
  have e2 : exHP1.HV_HYPOTHESIS_IN_MASK_MULTIPLIER = 10 := rfl
  have hprun : prun_outliers exHP1 [[(TF.nan, TF.nan), (TF.nan, TF.nan)]] =
      Except.ok [[(TF.nan, TF.nan), (TF.nan, TF.nan)]] := rfl
  refine ⟨by decide, by rw [h3, h4]; exact h5, hgen, by decide, ?_⟩
  simp only [batchwise_hough_voting, e1, e2, hgen, hprun, Except.map, hw, hwm]
  norm_num [-Prod.mk_zero_zero, -Prod.mk_one_one, range_lit1, List.findIdx?]

/-- C8: the boost factor is applied based on the `.long()` truncation of
the hypothesis, not on exact coincidence with a mask pixel: the
hypothesis `(5/2, 3)` lies on no mask pixel, yet its truncation `(2, 3)`
matches one, so its weight is `10 * 2 = 20` instead of the unboosted `2`
the claim requires for hypotheses not exactly on a pixel. -/
theorem C8_counterexample :
    votes exHyp4 exPts4 exUV4 = 2 ∧
    hInMaskCount exHyp4 exPts4 = 1 ∧
    rawWeight 10 exHyp4 exPts4 exUV4 = TF.fin 20 ∧
    TF.fin 20 ≠ TF.fin 2 ∧
    exHyp4 ≠ (TF.fin 2, TF.fin 3) ∧ exHyp4 ≠ (TF.fin 0, TF.fin 0) := by
  have h3 : uvAt exUV4 (2, 3) = (TF.fin 1, TF.fin 0) := by decide
  have h4 : uvAt exUV4 (0, 0) = (TF.fin 1, TF.fin 1) := by decide
  have hv : votes exHyp4 exPts4 exUV4 = 2 := by
    norm_num [-Prod.mk_zero_zero, -Prod.mk_one_one, votes, voteTest, exHyp4, exPts4, h3, h4]
  have hc : hInMaskCount exHyp4 exPts4 = 1 := by
    norm_num [-Prod.mk_zero_zero, -Prod.mk_one_one, hInMaskCount, hLong, qtrunc, exHyp4, exPts4]
  refine ⟨hv, hc, ?_, by simp, ?_, ?_⟩
  · norm_num [-Prod.mk_zero_zero, -Prod.mk_one_one, rawWeight, hv, hc]
  · simp only [exHyp4, ne_eq, Prod.mk.injEq, TF.fin.injEq, not_and]
    intro h
    norm_num at h
  · simp only [exHyp4, ne_eq, Prod.mk.injEq, TF.fin.injEq, not_and]
    intro h
    norm_num at h

theorem getD_map_range {α : Type _} (n i : ℕ) (f : ℕ → α) (d : α) (h : i < n) :
    ((List.range n).map f).getD i d = f i := by
  rw [List.getD_eq_getElem?_getD, List.getElem?_map, List.getElem?_range h]
  rfl

theorem voting_gen_none (hp : HParam) (sampler : ℕ → ℕ → ℕ × ℕ)
    (uv : List UVImg) (mask : List MaskImg)
    (hg : batchwise_generate_hypothesis hp.HV_NUM_OF_HYPOTHESES sampler uv
      mask = none) :
    batchwise_hough_voting hp sampler uv mask =
      Except.ok (List.replicate uv.length (TF.fin 0, TF.fin 0)) := by
  rw [batchwise_hough_voting, hg]

theorem voting_gen_some (hp : HParam) (sampler : ℕ → ℕ → ℕ × ℕ)
    (uv : List UVImg) (mask : List MaskImg) (hyp : List (List (TF × TF)))
    (apts : List (List (ℕ × ℕ))) (vs : List ℕ)
    (hg : batchwise_generate_hypothesis hp.HV_NUM_OF_HYPOTHESES sampler uv
      mask = some (hyp, apts, vs)) :
    batchwise_hough_voting hp sampler uv mask =
      Except.map (fun pruned =>
        (List.range uv.length).map fun i =>
          match vs.findIdx? (fun j => j == i) with
          | some j =>
            ((weightedMeanRows pruned (batchwise_calculate_hypothesis_weights
              hp.HV_HYPOTHESIS_IN_MASK_MULTIPLIER vs apts uv pruned)).map
                Prod.swap).getD j (TF.fin 0, TF.fin 0)
          | none => (TF.fin 0, TF.fin 0)) (prun_outliers hp hyp) := by
  rw [batchwise_hough_voting, hg]

/-- C10 (amended): for the pruning methods `z-score` and `iqr` (the
recognised methods other than `None`), replace policy, and a replacement
style other than `mean`/`median`, `prun_outliers` raises the `NameError`
of the unbound `replace_data` — reached only after the outlier-detection
flags of the dispatched trimming method have been computed in the same
branch — rather than failing fast as a configuration error. -/
theorem C10_amended (hp : HParam) (Y : List (List (TF × TF)))
    (hm : hp.PRUN_METHOD = some "z-score" ∨ hp.PRUN_METHOD = some "iqr")
    (hd : hp.PRUN_OUTLIER_DROP = false)
    (h1 : hp.PRUN_OUTLIER_REPLACEMENT_STYLE ≠ "mean")
    (h2 : hp.PRUN_OUTLIER_REPLACEMENT_STYLE ≠ "median") :
    prun_outliers hp Y =
      Except.error "NameError: name replace_data is not defined" := by
  rcases hm with hm | hm <;>
    simp [prun_outliers, hm, applyOutlierPolicy, hd, h1, h2]

theorem C10_witness :
    (exHPIqrMode.PRUN_METHOD = some "z-score" ∨
      exHPIqrMode.PRUN_METHOD = some "iqr") ∧
    exHPIqrMode.PRUN_OUTLIER_DROP = false ∧
    exHPIqrMode.PRUN_OUTLIER_REPLACEMENT_STYLE ≠ "mean" ∧
    exHPIqrMode.PRUN_OUTLIER_REPLACEMENT_STYLE ≠ "median" ∧
    prun_outliers exHPIqrMode exY =
      Except.error "NameError: name replace_data is not defined" :=
  ⟨Or.inr rfl, rfl, by decide, by decide,
    C10_amended exHPIqrMode exY (Or.inr rfl) rfl (by decide) (by decide)⟩

/-- C6 (amended): with an unrecognised pruning method the pipeline raises
`RuntimeError` if and only if some instance has at least two foreground
pixels; the error comes from `prun_outliers`, which runs only after
hypothesis generation, and a call with no valid instance returns zeros
without raising. -/
theorem C6_amended (hp : HParam) (sampler : ℕ → ℕ → ℕ × ℕ) (uv : List UVImg)
    (mask : List MaskImg) (s : String) (hs : hp.PRUN_METHOD = some s)
    (h1 : s ≠ "z-score") (h2 : s ≠ "iqr") :
    (batchwise_hough_voting hp sampler uv mask =
        Except.error "RuntimeError: Invalid HARAM.PRUN_METHOD" ↔
      validSamples uv mask ≠ []) := by
  by_cases hv : validSamples uv mask = []
  · have hgen : batchwise_generate_hypothesis hp.HV_NUM_OF_HYPOTHESES sampler
        uv mask = none := by
      simp [batchwise_generate_hypothesis, hv]
    simp [batchwise_hough_voting, hgen, hv]
  · have hgen : batchwise_generate_hypothesis hp.HV_NUM_OF_HYPOTHESES sampler
        uv mask =
        some ((validSamples uv mask).map fun i =>
            instanceHypotheses hp.HV_NUM_OF_HYPOTHESES sampler (uv.getD i []) i
              (maskPoints (mask.getD i [])),
          allPts uv mask, validSamples uv mask) := by
      simp [batchwise_generate_hypothesis, hv]
    have hprun : prun_outliers hp ((validSamples uv mask).map fun i =>
        instanceHypotheses hp.HV_NUM_OF_HYPOTHESES sampler (uv.getD i []) i
          (maskPoints (mask.getD i []))) =
        Except.error "RuntimeError: Invalid HARAM.PRUN_METHOD" := by
      simp [prun_outliers, hs, h1, h2]
    rw [voting_gen_some hp sampler uv mask _ _ _ hgen, hprun]
    simp only [Except.map]
    simpa using hv

theorem C6_witness :
    exHPBad.PRUN_METHOD = some "bogus" ∧
    "bogus" ≠ "z-score" ∧ "bogus" ≠ "iqr" ∧
    (batchwise_hough_voting exHPBad exSampler [exUV2] [exMask2] =
        Except.error "RuntimeError: Invalid HARAM.PRUN_METHOD" ↔
      validSamples [exUV2] [exMask2] ≠ []) :=
  ⟨rfl, by decide, by decide,
    C6_amended exHPBad exSampler [exUV2] [exMask2] "bogus" rfl (by decide)
      (by decide)⟩

/-- C5: every successful batched call returns one row per instance of the
`uv_img` batch, and every instance whose mask has fewer than two
foreground pixels gets exactly the zero row (never NaN). -/
theorem C5_zero_rows (hp : HParam) (sampler : ℕ → ℕ → ℕ × ℕ) (uv : List UVImg)
    (mask : List MaskImg) (out : List (TF × TF))
    (h : batchwise_hough_voting hp sampler uv mask = Except.ok out) :
    out.length = uv.length ∧
    ∀ i, i < uv.length → (maskPoints (mask.getD i [])).length < 2 →
      out.getD i (TF.nan, TF.nan) = (TF.fin 0, TF.fin 0) := by
  by_cases hv : validSamples uv mask = []
  · have hgen : batchwise_generate_hypothesis hp.HV_NUM_OF_HYPOTHESES sampler
        uv mask = none := by
      simp [batchwise_generate_hypothesis, hv]
    rw [voting_gen_none hp sampler uv mask hgen] at h
    simp only [Except.ok.injEq] at h
    subst h
    refine ⟨List.length_replicate .., fun i hi _ => ?_⟩
    rw [List.getD_eq_getElem?_getD, List.getElem?_replicate, if_pos hi]
    rfl
  · have hgen : batchwise_generate_hypothesis hp.HV_NUM_OF_HYPOTHESES sampler
        uv mask =
        some ((validSamples uv mask).map fun i =>
            instanceHypotheses hp.HV_NUM_OF_HYPOTHESES sampler (uv.getD i []) i
              (maskPoints (mask.getD i [])),
          allPts uv mask, validSamples uv mask) := by
      simp [batchwise_generate_hypothesis, hv]
    rw [voting_gen_some hp sampler uv mask _ _ _ hgen] at h
    rcases hprun : prun_outliers hp ((validSamples uv mask).map fun i =>
        instanceHypotheses hp.HV_NUM_OF_HYPOTHESES sampler (uv.getD i []) i
          (maskPoints (mask.getD i []))) with e | pruned
    · rw [hprun] at h
      simp [Except.map] at h
    · rw [hprun] at h
      simp only [Except.map, Except.ok.injEq] at h
      subst h
      constructor
      · simp
      · intro i hi hlt
        rw [getD_map_range _ _ _ _ hi]
        have hnotmem : i ∉ validSamples uv mask := by
          intro hmem
          have := (List.mem_filter.mp hmem).2
          simp only [decide_eq_true_eq] at this
          omega
        have hfind : (validSamples uv mask).findIdx? (fun j => j == i) = none := by
          rw [List.findIdx?_eq_none_iff]
          intro x hx
          have hne : x ≠ i := fun hxi => hnotmem (hxi ▸ hx)
          simpa using hne
        simp [hfind]

theorem C5_witness :
    batchwise_hough_voting exHPBad exSampler [exUVE] [exMaskE] =
      Except.ok [(TF.fin 0, TF.fin 0)] ∧
    ([(TF.fin 0, TF.fin 0)] : List (TF × TF)).getD 0 (TF.nan, TF.nan) =
      (TF.fin 0, TF.fin 0) := by
  have hok : batchwise_hough_voting exHPBad exSampler [exUVE] [exMaskE] =
      Except.ok [(TF.fin 0, TF.fin 0)] := by
    have hgen : batchwise_generate_hypothesis 2 exSampler [exUVE] [exMaskE] =
        none := by decide
    have e1 : exHPBad.HV_NUM_OF_HYPOTHESES = 2 := rfl
    simp [batchwise_hough_voting, e1, hgen]
  exact ⟨hok,
    (C5_zero_rows exHPBad exSampler [exUVE] [exMaskE] [(TF.fin 0, TF.fin 0)]
      hok).2 0 (by decide) (by decide)⟩

theorem filter_intpair_length (z : ℤ × ℤ) (pts : List (ℕ × ℕ))
    (hnd : pts.Nodup) :
    ((pts.filter fun p => decide (z = ((p.1 : ℤ), (p.2 : ℤ)))).length = 1 ↔
      ∃ p ∈ pts, z = ((p.1 : ℤ), (p.2 : ℤ))) := by
  induction pts with
  | nil => simp
  | cons a rest ih =>
    rcases List.nodup_cons.mp hnd with ⟨hna, hnr⟩
    by_cases ha : z = ((a.1 : ℤ), (a.2 : ℤ))
    · have hrest : rest.filter (fun p => decide (z = ((p.1 : ℤ), (p.2 : ℤ)))) = [] := by
        rw [List.filter_eq_nil_iff]
        intro q hq
        simp only [decide_eq_true_eq]
        intro hz
        apply hna
        have hpq : ((a.1 : ℤ), (a.2 : ℤ)) = ((q.1 : ℤ), (q.2 : ℤ)) :=
          ha.symm.trans hz
        simp only [Prod.mk.injEq, Nat.cast_inj] at hpq
        rwa [show a = q from Prod.ext hpq.1 hpq.2]
      rw [List.filter_cons, if_pos (by simpa using ha), hrest]
      simp only [List.length_cons, List.length_nil]
      constructor
      · intro _
        exact ⟨a, List.mem_cons_self a rest, ha⟩
      · intro _
        trivial
    · rw [List.filter_cons, if_neg (by simpa using ha), ih hnr]
      simp [ha]

/-- C8 (amended): the in-mask boost is applied if and only if the
`.long()` truncation of the (finite) hypothesis coordinates coincides
with some mask pixel — not only on exact coincidence; a hypothesis with a
NaN coordinate never matches.  With a match the vote count is multiplied
by the configured factor, otherwise it is left unchanged. -/
theorem C8_amended (mult : ℚ) (h : TF × TF) (pts : List (ℕ × ℕ)) (uvg : UVImg)
    (hnd : pts.Nodup) :
    (hInMaskCount h pts = 1 ↔
      ∃ z, hLong h = some z ∧ ∃ p ∈ pts, z = ((p.1 : ℤ), (p.2 : ℤ))) ∧
    ((∃ z, hLong h = some z ∧ ∃ p ∈ pts, z = ((p.1 : ℤ), (p.2 : ℤ))) →
      rawWeight mult h pts uvg = TF.fin mult * TF.fin (votes h pts uvg : ℚ)) ∧
    (¬ (∃ z, hLong h = some z ∧ ∃ p ∈ pts, z = ((p.1 : ℤ), (p.2 : ℤ))) →
      rawWeight mult h pts uvg = TF.fin (votes h pts uvg : ℚ)) := by
  have hiff : hInMaskCount h pts = 1 ↔
      ∃ z, hLong h = some z ∧ ∃ p ∈ pts, z = ((p.1 : ℤ), (p.2 : ℤ)) := by
    rcases hl : hLong h with _ | z
    · simp only [hInMaskCount, hl]
      have hnil : (pts.filter fun p =>
          decide ((none : Option (ℤ × ℤ)) = some ((p.1 : ℤ), (p.2 : ℤ)))) = [] := by
        simp [List.filter_eq_nil_iff]
      rw [hnil]
      simp
    · simp only [hInMaskCount, hl, Option.some.injEq]
      rw [filter_intpair_length z pts hnd]
      constructor
      · rintro ⟨p, hp, hz⟩
        exact ⟨z, rfl, p, hp, hz⟩
      · rintro ⟨z2, hz2, p, hp, hz⟩
        exact ⟨p, hp, hz2 ▸ hz⟩
  refine ⟨hiff, ?_, ?_⟩
  · intro hex
    rw [rawWeight, if_pos (hiff.mpr hex)]
  · intro hnex
    rw [rawWeight, if_neg (fun hc => hnex (hiff.mp hc))]
    simp

theorem C8_witness :
    List.Nodup exPts4 ∧
    rawWeight 10 (TF.fin 7, TF.fin 7) exPts4 exUV4 =
      TF.fin ((votes (TF.fin 7, TF.fin 7) exPts4 exUV4 : ℕ) : ℚ) := by
  refine ⟨by decide, ?_⟩
  refine (C8_amended 10 (TF.fin 7, TF.fin 7) exPts4 exUV4 (by decide)).2.2 ?_
  rintro ⟨z, hz, p, hp, hzp⟩
  have hl7 : hLong (TF.fin 7, TF.fin 7) = some ((7 : ℤ), (7 : ℤ)) := by
    norm_num [hLong, qtrunc]
  rw [hl7] at hz
  have hz7 : z = ((7 : ℤ), (7 : ℤ)) := by
    injection hz with hh
    exact hh.symm
  subst hz7
  fin_cases hp <;> simp_all

theorem tfSum_cons (x : TF) (l : List TF) : tfSum (x :: l) = x + tfSum l := rfl

theorem tfSum_map_fin {α : Type _} (f : α → ℚ) (l : List α) :
    tfSum (l.map fun x => TF.fin (f x)) = TF.fin ((l.map f).sum) := by
  induction l with
  | nil => simp [tfSum]
  | cons a t ih =>
    rw [List.map_cons, tfSum_cons, ih, List.map_cons, List.sum_cons, TF.add_fin]

theorem voteTest_nan (y : TF × TF) (hy : (y.1.isNan || y.2.isNan) = true)
    (p : ℕ × ℕ) (u : TF × TF) : voteTest y p u = false := by
  rcases y with ⟨y1, y2⟩
  rcases u with ⟨u1, u2⟩
  cases y1 <;> cases y2 <;> cases u1 <;> cases u2 <;>
    simp_all [voteTest, TF.isNan]

theorem votes_nan (y : TF × TF) (pts : List (ℕ × ℕ)) (uvg : UVImg)
    (hy : (y.1.isNan || y.2.isNan) = true) : votes y pts uvg = 0 := by
  rw [votes, List.length_eq_zero, List.filter_eq_nil_iff]
  intro p _
  simp [voteTest_nan y hy]

theorem hLong_nan (y : TF × TF) (hy : (y.1.isNan || y.2.isNan) = true) :
    hLong y = none := by
  rcases y with ⟨y1, y2⟩
  cases y1 <;> cases y2 <;> simp_all [hLong, TF.isNan]

theorem sum_map_div {α : Type _} (f : α → ℚ) (l : List α) (c : ℚ) :
    (l.map fun x => f x / c).sum = (l.map f).sum / c := by
  induction l with
  | nil => simp
  | cons a t ih => simp [ih, add_div]

/-- C2 (amended): for an instance reaching the Consensus Weighter with
a multiplier within its spec range, the sum of the final weights (after
normalisation and NaN-outlier zeroing) is 0 when every hypothesis has a
NaN component, and 1 when at least one NaN-free hypothesis receives a
positive vote count.  (When all hypotheses survive with zero votes the
normalisation is `0 / 0` and the sum is NaN — the corrected part.) -/
theorem C2_amended (mult : ℚ) (hs : List (TF × TF)) (pts : List (ℕ × ℕ))
    (uvg : UVImg) (hm : 1 ≤ mult) :
    ((∀ y ∈ hs, (y.1.isNan || y.2.isNan) = true) →
      tfSum (finalInstanceWeights hs (instanceWeights mult hs pts uvg)) =
        TF.fin 0) ∧
    ((∃ y ∈ hs, (y.1.isNan || y.2.isNan) = false ∧ 0 < votes y pts uvg) →
      tfSum (finalInstanceWeights hs (instanceWeights mult hs pts uvg)) =
        TF.fin 1) := by
  set g : TF × TF → ℚ := fun y =>
    (if hInMaskCount y pts = 1 then mult else 1) * ((votes y pts uvg : ℕ) : ℚ)
    with hgdef
  have hraw : ∀ y, rawWeight mult y pts uvg = TF.fin (g y) := by
    intro y
    rw [rawWeight, hgdef]
    split <;> simp [*]
  have hgnan : ∀ y : TF × TF, (y.1.isNan || y.2.isNan) = true → g y = 0 := by
    intro y hy
    rw [hgdef]
    simp [votes_nan y pts uvg hy]
  have hgnonneg : ∀ y : TF × TF, 0 ≤ g y := by
    intro y
    rw [hgdef]
    apply mul_nonneg
    · split
      · linarith
      · norm_num
    · positivity
  constructor
  · intro hall
    clear hraw hgnan hgnonneg
    generalize instanceWeights mult hs pts uvg = ws
    induction hs generalizing ws with
    | nil => simp [finalInstanceWeights, tfSum]
    | cons a t ih =>
      cases ws with
      | nil => simp [finalInstanceWeights, tfSum]
      | cons w wt =>
        have ha := hall a (List.mem_cons_self a t)
        have ht : ∀ y ∈ t, (y.1.isNan || y.2.isNan) = true := fun y hy =>
          hall y (List.mem_cons_of_mem a hy)
        simp only [finalInstanceWeights, List.zipWith_cons_cons, ha, if_true,
          tfSum_cons] at ih ⊢
        rw [ih ht wt, TF.add_fin]
        norm_num
  · rintro ⟨y0, hy0mem, -, hy0votes⟩
    have hgy0 : 1 ≤ g y0 := by
      simp only [hgdef]
      have hv1 : (1 : ℚ) ≤ ((votes y0 pts uvg : ℕ) : ℚ) := by
        exact_mod_cast hy0votes
      have hf1 : (1 : ℚ) ≤ if hInMaskCount y0 pts = 1 then mult else 1 := by
        split
        · exact hm
        · exact le_refl 1
      nlinarith
    have hS1 : 1 ≤ (hs.map g).sum := by
      calc (1 : ℚ) ≤ g y0 := hgy0
        _ ≤ (hs.map g).sum := by
          apply List.single_le_sum
          · intro x hx
            rcases List.mem_map.mp hx with ⟨y, _, rfl⟩
            exact hgnonneg y
          · exact List.mem_map_of_mem g hy0mem
    have hSne : (hs.map g).sum ≠ 0 := by linarith
    have hws : instanceWeights mult hs pts uvg =
        hs.map fun y => TF.fin (g y / (hs.map g).sum) := by
      rw [instanceWeights]
      simp only [hraw]
      rw [tfSum_map_fin]
      rw [List.map_map]
      apply List.map_congr_left
      intro y _
      simp [TF.div_fin, hSne]
    rw [hws, finalInstanceWeights, List.zipWith_map_right, List.zipWith_same]
    have hfw : (hs.map fun h => if h.1.isNan || h.2.isNan then TF.fin 0
        else TF.fin (g h / (hs.map g).sum)) =
        hs.map fun h => TF.fin (g h / (hs.map g).sum) := by
      apply List.map_congr_left
      intro y _
      by_cases hy : (y.1.isNan || y.2.isNan) = true
      · simp [hy, hgnan y hy]
      · simp [hy]
    rw [hfw, tfSum_map_fin, sum_map_div, div_self hSne]


theorem C2_witness :
    (1 : ℚ) ≤ 10 ∧
    tfSum (finalInstanceWeights [(TF.fin 1, TF.fin 2), (TF.fin 1, TF.fin 2)]
      (instanceWeights 10 [(TF.fin 1, TF.fin 2), (TF.fin 1, TF.fin 2)]
        [(0, 2), (1, 0)] exUV1)) = TF.fin 1 := by
  refine ⟨by norm_num, ?_⟩
  refine (C2_amended 10 _ _ exUV1 (by norm_num)).2 ?_
  refine ⟨(TF.fin 1, TF.fin 2), by simp, by simp [TF.isNan], ?_⟩
  have h3 : uvAt exUV1 (0, 2) = (TF.fin 1, TF.fin 0) := by decide
  have h4 : uvAt exUV1 (1, 0) = (TF.fin 0, TF.fin 1) := by decide
  norm_num [votes, voteTest, h3, h4]

theorem findIdx_nodup_pos (l : List ℕ) (hl : l.Nodup) (j : ℕ)
    (hj : j < l.length) :
    l.findIdx? (fun x => x == l.getD j 0) = some j := by
  induction l generalizing j with
  | nil => simp at hj
  | cons a t ih =>
    rcases List.nodup_cons.mp hl with ⟨hna, hnt⟩
    cases j with
    | zero => simp
    | succ k =>
      have hk : k < t.length := by simpa using hj
      have hget : (a :: t).getD (k + 1) 0 = t.getD k 0 := rfl
      have hmem : t.getD k 0 ∈ t := by
        rw [List.getD_eq_getElem t 0 hk]
        exact List.getElem_mem hk
      have hane : (a == t.getD k 0) = false := by
        simp only [beq_eq_false_iff_ne]
        intro heq
        exact hna (heq ▸ hmem)
      rw [hget, List.findIdx?_cons, if_neg (by simpa using hane),
        List.findIdx?_succ, ih hnt k hk]
      rfl

theorem applyOutlierPolicy_length (hp : HParam) (flags : List (List Bool))
    (Y pruned : List (List (TF × TF)))
    (hfl : Y.length ≤ flags.length)
    (h : applyOutlierPolicy hp flags Y = Except.ok pruned) :
    pruned.length = Y.length := by
  rw [applyOutlierPolicy] at h
  split at h
  · injection h with h
    subst h
    simp [List.length_zipWith]
    omega
  · split at h
    · injection h with h
      subst h
      simp [List.length_zipWith]
      omega
    · exact absurd h (by simp)

theorem prun_outliers_length (hp : HParam) (Y pruned : List (List (TF × TF)))
    (h : prun_outliers hp Y = Except.ok pruned) :
    pruned.length = Y.length := by
  rw [prun_outliers] at h
  split at h
  · injection h with h
    subst h
    rfl
  · split at h
    · exact applyOutlierPolicy_length _ _ _ _
        (by simp [batchwise_z_score_trimming]) h
    · split at h
      · exact applyOutlierPolicy_length _ _ _ _
          (by simp [batchwise_iqr_trimming]) h
      · exact absurd h (by simp)

theorem validSamples_nodup (uv : List UVImg) (mask : List MaskImg) :
    (validSamples uv mask).Nodup :=
  (List.nodup_range _).filter _

theorem validSamples_lt (uv : List UVImg) (mask : List MaskImg) :
    ∀ i ∈ validSamples uv mask, i < uv.length := fun _ hi =>
  List.mem_range.mp (List.mem_of_mem_filter hi)

theorem getD_map_of_lt {α β : Type _} (f : α → β) (l : List α) (j : ℕ)
    (hj : j < l.length) (d' : α) (d : β) :
    (l.map f).getD j d = f (l.getD j d') := by
  rw [List.getD_eq_getElem?_getD, List.getElem?_map,
    List.getElem?_eq_getElem hj]
  rw [List.getD_eq_getElem l d' hj]
  rfl

/-- C1 (amended): for every run reaching the weighted-mean stage, the
output row of a ValidityMask instance is the swap of that instance's
internal weighted mean, which is computed in the `(row, col)` coordinate
order of `maskPoints` — i.e. the output coordinate order is `(col, row)`,
flipped from the mask's pixel indexing. -/
theorem C1_amended (hp : HParam) (sampler : ℕ → ℕ → ℕ × ℕ) (uv : List UVImg)
    (mask : List MaskImg) (hyp pruned : List (List (TF × TF)))
    (apts : List (List (ℕ × ℕ))) (vs : List ℕ) (out : List (TF × TF)) (j : ℕ)
    (hg : batchwise_generate_hypothesis hp.HV_NUM_OF_HYPOTHESES sampler uv
      mask = some (hyp, apts, vs))
    (hpr : prun_outliers hp hyp = Except.ok pruned)
    (hout : batchwise_hough_voting hp sampler uv mask = Except.ok out)
    (hj : j < vs.length) :
    out.getD (vs.getD j 0) (TF.nan, TF.nan) =
      Prod.swap ((weightedMeanRows pruned
        (batchwise_calculate_hypothesis_weights
          hp.HV_HYPOTHESIS_IN_MASK_MULTIPLIER vs apts uv pruned)).getD j
        (TF.fin 0, TF.fin 0)) := by
  have hg2 := hg
  rw [batchwise_generate_hypothesis] at hg2
  split at hg2
  · exact absurd hg2 (by simp)
  · simp only [Option.some.injEq, Prod.mk.injEq] at hg2
    obtain ⟨hhyp, hapts, hvs⟩ := hg2
    have hnd : vs.Nodup := hvs ▸ validSamples_nodup uv mask
    have hyplen : hyp.length = vs.length := by
      rw [← hhyp, hvs]
      simp
    have hplen : pruned.length = vs.length :=
      (prun_outliers_length hp hyp pruned hpr).trans hyplen
    have hmemj : vs.getD j 0 ∈ vs := by
      rw [List.getD_eq_getElem vs 0 hj]
      exact List.getElem_mem hj
    have hi : vs.getD j 0 < uv.length :=
      validSamples_lt uv mask _ (hvs ▸ hmemj)
    rw [voting_gen_some hp sampler uv mask hyp apts vs hg, hpr] at hout
    simp only [Except.map, Except.ok.injEq] at hout
    subst hout
    rw [getD_map_range _ _ _ _ hi, findIdx_nodup_pos vs hnd j hj]
    have hwlen : (weightedMeanRows pruned
        (batchwise_calculate_hypothesis_weights
          hp.HV_HYPOTHESIS_IN_MASK_MULTIPLIER vs apts uv pruned)).length =
        vs.length := by
      rw [weightedMeanRows, List.length_zipWith,
        batchwise_calculate_hypothesis_weights]
      simp [hplen]
    exact getD_map_of_lt Prod.swap _ j (by rw [hwlen]; exact hj)
      (TF.fin 0, TF.fin 0) (TF.fin 0, TF.fin 0)

theorem C1_witness :
    ([(TF.fin 2, TF.fin 1)] : List (TF × TF)).getD
        (([0] : List ℕ).getD 0 0) (TF.nan, TF.nan) =
      Prod.swap ((weightedMeanRows
        [[(TF.fin 1, TF.fin 2), (TF.fin 1, TF.fin 2)]]
        (batchwise_calculate_hypothesis_weights
          exHP1.HV_HYPOTHESIS_IN_MASK_MULTIPLIER [0] [[(0, 2), (1, 0)]] [exUV1]
          [[(TF.fin 1, TF.fin 2), (TF.fin 1, TF.fin 2)]])).getD 0
        (TF.fin 0, TF.fin 0)) :=
  C1_amended exHP1 exSampler [exUV1] [exMask1]
    [[(TF.fin 1, TF.fin 2), (TF.fin 1, TF.fin 2)]]
    [[(TF.fin 1, TF.fin 2), (TF.fin 1, TF.fin 2)]] [[(0, 2), (1, 0)]] [0]
    [(TF.fin 2, TF.fin 1)] 0 exGen1 rfl exVoting1 (by decide)

theorem tfInsert_map_fin (x : ℚ) (l : List ℚ) :
    tfInsert (TF.fin x) (l.map TF.fin) = (qInsert x l).map TF.fin := by
  induction l with
  | nil => rfl
  | cons y ys ih =>
    simp only [List.map_cons, tfInsert, qInsert, sortLe]
    by_cases h : x ≤ y
    · simp [h]
    · simp [h, ih]

theorem tfSort_map_fin (l : List ℚ) :
    tfSort (l.map TF.fin) = (qSort l).map TF.fin := by
  induction l with
  | nil => rfl
  | cons y ys ih =>
    simp only [List.map_cons, tfSort, qSort, List.foldr_cons]
    rw [show List.foldr tfInsert [] (ys.map TF.fin) = tfSort (ys.map TF.fin)
        from rfl, ih, tfInsert_map_fin]
    rfl

theorem qInsert_length (x : ℚ) (l : List ℚ) :
    (qInsert x l).length = l.length + 1 := by
  induction l with
  | nil => rfl
  | cons y ys ih =>
    simp only [qInsert]
    split <;> simp [ih]

theorem qSort_length (l : List ℚ) : (qSort l).length = l.length := by
  induction l with
  | nil => rfl
  | cons y ys ih =>
    have h1 : qSort (y :: ys) = qInsert y (qSort ys) := rfl
    rw [h1, qInsert_length, ih]
    rfl

theorem qInsert_perm (x : ℚ) (l : List ℚ) : List.Perm (qInsert x l) (x :: l) := by
  induction l with
  | nil => exact List.Perm.refl _
  | cons y ys ih =>
    simp only [qInsert]
    split
    · exact List.Perm.refl _
    · exact (ih.cons y).trans (List.Perm.swap x y ys)

theorem qSort_perm (l : List ℚ) : List.Perm (qSort l) l := by
  induction l with
  | nil => exact List.Perm.refl _
  | cons y ys ih =>
    have h1 : qSort (y :: ys) = qInsert y (qSort ys) := rfl
    rw [h1]
    exact (qInsert_perm y (qSort ys)).trans (ih.cons y)

theorem qmedian_mem (l : List ℚ) (h : l ≠ []) : qmedian l ∈ l := by
  have hlen : (l.length - 1) / 2 < (qSort l).length := by
    rw [qSort_length]
    have := List.length_pos.mpr h
    omega
  have hmem : qmedian l ∈ qSort l := by
    rw [qmedian, List.getD_eq_getElem _ _ hlen]
    exact List.getElem_mem hlen
  exact (qSort_perm l).mem_iff.mp hmem

theorem tmedian_map_fin (l : List ℚ) (h : l ≠ []) :
    tmedian (l.map TF.fin) = TF.fin (qmedian l) := by
  rw [tmedian, tfSort_map_fin, List.length_map]
  have hlt : (l.length - 1) / 2 < (qSort l).length := by
    rw [qSort_length]
    have := List.length_pos.mpr h
    omega
  rw [getD_map_of_lt TF.fin (qSort l) _ hlt 0 TF.nan]
  rfl

theorem filter_le_fin (l : List ℚ) (q : ℚ) :
    ((l.map TF.fin).filter fun v => TF.le v (TF.fin q)) =
      (l.filter fun x => decide (x ≤ q)).map TF.fin := by
  rw [List.filter_map]
  rfl

theorem filter_ge_fin (l : List ℚ) (q : ℚ) :
    ((l.map TF.fin).filter fun v => TF.le (TF.fin q) v) =
      (l.filter fun x => decide (q ≤ x)).map TF.fin := by
  rw [List.filter_map]
  rfl

theorem iqrCutoffs_map (m : ℚ) (col : List ℚ) (h : col ≠ []) :
    iqrCutoffs m (col.map TF.fin) =
      (TF.fin (qIqrCutoffs m col).1, TF.fin (qIqrCutoffs m col).2) := by
  have hq2 : tmedian (col.map TF.fin) = TF.fin (qmedian col) :=
    tmedian_map_fin col h
  have hlow : (col.filter fun x => decide (x ≤ qmedian col)) ≠ [] :=
    List.ne_nil_of_mem (List.mem_filter.mpr ⟨qmedian_mem col h, by simp⟩)
  have hhigh : (col.filter fun x => decide (qmedian col ≤ x)) ≠ [] :=
    List.ne_nil_of_mem (List.mem_filter.mpr ⟨qmedian_mem col h, by simp⟩)
  simp only [iqrCutoffs, qIqrCutoffs, hq2, filter_le_fin, filter_ge_fin,
    tmedian_map_fin _ hlow, tmedian_map_fin _ hhigh, TF.sub_fin, TF.mul_fin,
    TF.add_fin]

theorem iqr_flags_spec (m : ℚ) (ys : List (ℚ × ℚ)) :
    iqrInstanceFlags m (ys.map finPair) = ys.map (iqrOutlierSpec m ys) := by
  rcases hys : ys with _ | ⟨a, t⟩
  · rfl
  · rw [← hys]
    have hne : ys ≠ [] := by rw [hys]; simp
    have hc0 : (ys.map finPair).map Prod.fst = (ys.map Prod.fst).map TF.fin := by
      simp only [List.map_map]
      rfl
    have hc1 : (ys.map finPair).map Prod.snd = (ys.map Prod.snd).map TF.fin := by
      simp only [List.map_map]
      rfl
    have hne0 : ys.map Prod.fst ≠ [] := by simp [hne]
    have hne1 : ys.map Prod.snd ≠ [] := by simp [hne]
    simp only [iqrInstanceFlags]
    rw [hc0, hc1, iqrCutoffs_map m _ hne0, iqrCutoffs_map m _ hne1,
      List.map_map]
    apply List.map_congr_left
    intro v _
    simp [Function.comp, finPair, iqrOutlierSpec]

/-- C7: on every finite hypothesis set, `batchwise_iqr_trimming` flags a
hypothesis as an outlier exactly per the spec's criterion: per-instance
per-axis quartiles `Q1` (median of values `≤ Q2`), `Q3` (median of values
`≥ Q2`) with `Q2` the per-axis median, and outlier iff some coordinate
lies outside `[Q1 - m·IQR, Q3 + m·IQR]` with `IQR = Q3 - Q1` (median
meaning the lower-middle median computed by `torch.median`). -/
theorem C7_iqr_refinement (m : ℚ) (YQ : List (List (ℚ × ℚ))) :
    batchwise_iqr_trimming m (YQ.map fun ys => ys.map finPair) =
      YQ.map fun ys => ys.map (iqrOutlierSpec m ys) := by
  rw [batchwise_iqr_trimming, List.map_map]
  apply List.map_congr_left
  intro ys _
  simp only [Function.comp]
  exact iqr_flags_spec m ys

end HoughVoting
